import Mathlib

/-!
Verification development for the `bevy-balls` physics simulation
(`src/main.rs`).  The simulation state is shallowly embedded: 2D/3D
vectors carry real components, and `Vec2.length`, `Vec2.distance` and
`Vec2.normalize` mirror the `glam` vector operations the source calls.
Each Bevy system of the fixed-update pipeline is embedded as a function
on lists of ball states; collision events are returned as explicit lists.
-/

noncomputable section

@[ext] structure Vec2 where
  x : ℝ
  y : ℝ

@[ext] structure Vec3 where
  x : ℝ
  y : ℝ
  z : ℝ

instance : Add Vec2 := ⟨fun a b => ⟨a.x + b.x, a.y + b.y⟩⟩

instance : Sub Vec2 := ⟨fun a b => ⟨a.x - b.x, a.y - b.y⟩⟩

instance : SMul ℝ Vec2 := ⟨fun c v => ⟨c * v.x, c * v.y⟩⟩

instance : Sub Vec3 := ⟨fun a b => ⟨a.x - b.x, a.y - b.y, a.z - b.z⟩⟩

instance : SMul ℝ Vec3 := ⟨fun c v => ⟨c * v.x, c * v.y, c * v.z⟩⟩

instance : DecidableEq Vec2 := fun a b =>
  decidable_of_iff (a.x = b.x ∧ a.y = b.y) (by cases a; cases b; simp)

/-- `Vec2::dot` of glam: componentwise products summed. -/
def Vec2.dot (a b : Vec2) : ℝ := a.x * b.x + a.y * b.y

/-- `Vec2::length` of glam: square root of the self dot product. -/
def Vec2.length (v : Vec2) : ℝ := Real.sqrt (v.dot v)

/-- `Vec2::distance` of glam: length of the difference. -/
def Vec2.distance (a b : Vec2) : ℝ := (a - b).length

/-- `Vec2::normalize` of glam: the vector scaled by the reciprocal of its
length.  (On a zero vector the source produces NaN; here the junk value
is the zero vector, and every use below is guarded or analysed.) -/
def Vec2.normalize (v : Vec2) : Vec2 := (1 / v.length) • v

/-- `Vec2::extend`: append a z component. -/
def Vec2.extend (v : Vec2) (z : ℝ) : Vec3 := ⟨v.x, v.y, z⟩

/-- `Vec3::truncate`: drop the z component. -/
def Vec3.truncate (v : Vec3) : Vec2 := ⟨v.x, v.y⟩

/-- `const BALL_RADIUS: f32 = 10.0`. -/
def BALL_RADIUS : ℝ := 10

/-- `const BALL_STARTING_SPEED: f32 = 200.0`. -/
def BALL_STARTING_SPEED : ℝ := 200

/-- `const BALL_GRAVITY: f32 = -300.`. -/
def BALL_GRAVITY : ℝ := -300

/-- `const CAGE_RADIUS: f32 = 100.0`. -/
def CAGE_RADIUS : ℝ := 100

/-- One ball entity: its `Entity` id, its `Transform` translation and its
`Velocity` component. -/
structure BallState where
  id : ℕ
  translation : Vec3
  velocity : Vec2

/-- The reflection `velocity - 2.0 * velocity.dot(normal) * normal`
performed by both `collide_cage` and `collide_others`. -/
def reflect (v n : Vec2) : Vec2 := v - (2 * v.dot n) • n

/-- One loop iteration of `collide_cage` (src/main.rs, lines 154-174):
penetration test against the cage, reflection, positional correction and
the emitted `CageCollisionEvent` (represented by the entity id). -/
def collide_cage_ball (b : BallState) : BallState × List ℕ :=
  if Vec2.distance b.translation.truncate ⟨0, 0⟩ + BALL_RADIUS / 2 > CAGE_RADIUS then
    (⟨b.id,
      Vec2.extend
        (b.translation.truncate +
          (BALL_RADIUS / 2 + Vec2.distance b.translation.truncate ⟨0, 0⟩ - CAGE_RADIUS) •
            Vec2.normalize ((⟨0, 0⟩ : Vec2) - b.translation.truncate))
        b.translation.z,
      reflect b.velocity (Vec2.normalize ((⟨0, 0⟩ : Vec2) - b.translation.truncate))⟩,
     [b.id])
  else (b, [])

/-- The `collide_cage` system: every ball is resolved independently and
the emitted events are concatenated in iteration order. -/
def collide_cage : List BallState → List BallState × List ℕ
  | [] => ([], [])
  | b :: rest =>
    ((collide_cage_ball b).1 :: (collide_cage rest).1,
     (collide_cage_ball b).2 ++ (collide_cage rest).2)

/-- Prefix an event to the event list of an inner-loop result. -/
def cons_event (e : ℕ × ℕ) (r : Vec3 × Vec2 × List (ℕ × ℕ)) :
    Vec3 × Vec2 × List (ℕ × ℕ) :=
  (r.1, r.2.1, e :: r.2.2)

/-- The inner loop of `collide_others` (src/main.rs, lines 190-212) for
one ball: scan the snapshotted `ball_positions`, skip entries at the
exact same position as the (snapshotted) own position `pos0`, and for
each overlapping entry reflect the velocity, push the transform back and
emit an `OtherCollisionEvent` `(self, other)`. -/
def collide_others_inner (i : ℕ) (pos0 : Vec2) :
    List (ℕ × Vec2) → Vec3 → Vec2 → Vec3 × Vec2 × List (ℕ × ℕ)
  | [], tr, vel => (tr, vel, [])
  | (oid, opos) :: rest, tr, vel =>
    if pos0 = opos then collide_others_inner i pos0 rest tr vel
    else if Vec2.distance pos0 opos < BALL_RADIUS / 2 + BALL_RADIUS / 2 then
      cons_event (i, oid)
        (collide_others_inner i pos0 rest
          (tr - (BALL_RADIUS / 2 + BALL_RADIUS / 2 - Vec2.distance pos0 opos) •
            Vec2.extend (Vec2.normalize (opos - pos0)) 0)
          (reflect vel (Vec2.normalize (opos - pos0))))
    else collide_others_inner i pos0 rest tr vel

/-- One outer loop iteration of `collide_others` for ball `b`: the inner
loop runs with `b`'s own position read once before the loop. -/
def collide_others_ball (snap : List (ℕ × Vec2)) (b : BallState) :
    BallState × List (ℕ × ℕ) :=
  (⟨b.id,
    (collide_others_inner b.id b.translation.truncate snap b.translation b.velocity).1,
    (collide_others_inner b.id b.translation.truncate snap b.translation b.velocity).2.1⟩,
   (collide_others_inner b.id b.translation.truncate snap b.translation b.velocity).2.2)

/-- The outer loop of `collide_others` over all balls, with a fixed
snapshot of positions. -/
def collide_others_pass (snap : List (ℕ × Vec2)) :
    List BallState → List BallState × List (ℕ × ℕ)
  | [] => ([], [])
  | b :: rest =>
    ((collide_others_ball snap b).1 :: (collide_others_pass snap rest).1,
     (collide_others_ball snap b).2 ++ (collide_others_pass snap rest).2)

/-- The `ball_positions` snapshot collected at the start of
`collide_others` (src/main.rs, lines 182-185). -/
def snapshot_of (balls : List BallState) : List (ℕ × Vec2) :=
  balls.map fun b => (b.id, b.translation.truncate)

/-- The `collide_others` system. -/
def collide_others (balls : List BallState) : List BallState × List (ℕ × ℕ) :=
  collide_others_pass (snapshot_of balls) balls

/-- Event list produced by the inner loop; it depends only on the
snapshotted own position, not on the mutated transform or velocity. -/
def inner_events_list (i : ℕ) (pos0 : Vec2) : List (ℕ × Vec2) → List (ℕ × ℕ)
  | [] => []
  | (oid, opos) :: rest =>
    if pos0 = opos then inner_events_list i pos0 rest
    else if Vec2.distance pos0 opos < BALL_RADIUS / 2 + BALL_RADIUS / 2 then
      (i, oid) :: inner_events_list i pos0 rest
    else inner_events_list i pos0 rest

/-- The `apply_gravity` system: `velocity.y += gravity.0 * dt`. -/
def apply_gravity (dt : ℝ) (balls : List BallState) : List BallState :=
  balls.map fun b => ⟨b.id, b.translation, ⟨b.velocity.x, b.velocity.y + BALL_GRAVITY * dt⟩⟩

/-- The `apply_velocity` system: `translation += velocity * dt` on x, y. -/
def apply_velocity (dt : ℝ) (balls : List BallState) : List BallState :=
  balls.map fun b =>
    ⟨b.id,
     ⟨b.translation.x + b.velocity.x * dt, b.translation.y + b.velocity.y * dt, b.translation.z⟩,
     b.velocity⟩

/-- `starting_direction` of `spawn_ball`: both components are a sample
`r ∈ [0, 1]` mapped through `r * 2.0 - 1.0`. -/
def starting_direction (r1 r2 : ℝ) : Vec2 := ⟨r1 * 2 - 1, r2 * 2 - 1⟩

/-- `spawn_ball` (src/main.rs, lines 66-97): a new ball at translation
`(0, 0, 1)` whose velocity is the normalized random direction scaled by
`BALL_STARTING_SPEED`.  The random samples are passed in explicitly. -/
def spawn_ball (i : ℕ) (r1 r2 : ℝ) : BallState :=
  ⟨i, ⟨0, 0, 1⟩, BALL_STARTING_SPEED • (starting_direction r1 r2).normalize⟩

/-- `maybe_spawn_ball` (src/main.rs, lines 216-228): if any cage
collision event is present, spawn one ball with probability 10%
(`rand * 100.0 < 10.0`, with the random sample passed in explicitly). -/
def maybe_spawn_ball (events : List ℕ) (r : ℝ) (balls : List BallState)
    (newId : ℕ) (r1 r2 : ℝ) : List BallState :=
  if events.isEmpty = false then
    if r * 100 < 10 then balls ++ [spawn_ball newId r1 r2] else balls
  else balls

/-- Names of the systems registered in `main` (src/main.rs, lines 14-35). -/
inductive SystemName where
  | applyGravity
  | applyVelocity
  | collideCage
  | collideOthers
  | playCollisionSound
  | closeOnEsc
  | spawnBallOnSpace
  | maybeSpawnBall
deriving DecidableEq

/-- Systems registered in the `FixedUpdate` schedule, in their `.chain()`
order. -/
def fixed_update_systems : List SystemName :=
  [SystemName.applyGravity, SystemName.applyVelocity,
   SystemName.collideCage, SystemName.collideOthers]

/-- The `FixedUpdate` systems are chained (strictly ordered). -/
def fixed_update_chained : Bool := true

/-- Systems registered in the per-frame `Update` schedule (unordered). -/
def update_systems : List SystemName :=
  [SystemName.playCollisionSound, SystemName.closeOnEsc,
   SystemName.spawnBallOnSpace, SystemName.maybeSpawnBall]

/-- Semantics of one fixed tick: the four chained `FixedUpdate` systems
run in order; the two event lists are returned for the consumers. -/
def fixed_update_tick (dt : ℝ) (balls : List BallState) :
    List BallState × List ℕ × List (ℕ × ℕ) :=
  ((collide_others ((collide_cage (apply_velocity dt (apply_gravity dt balls))).1)).1,
   (collide_cage (apply_velocity dt (apply_gravity dt balls))).2,
   (collide_others ((collide_cage (apply_velocity dt (apply_gravity dt balls))).1)).2)

@[simp] lemma Vec2.add_def (a b : Vec2) : a + b = ⟨a.x + b.x, a.y + b.y⟩ := rfl

@[simp] lemma Vec2.sub_def (a b : Vec2) : a - b = ⟨a.x - b.x, a.y - b.y⟩ := rfl

@[simp] lemma Vec2.smul_def (c : ℝ) (v : Vec2) : c • v = ⟨c * v.x, c * v.y⟩ := rfl

@[simp] lemma Vec3.sub3_def (a b : Vec3) : a - b = ⟨a.x - b.x, a.y - b.y, a.z - b.z⟩ := rfl

@[simp] lemma Vec3.smul3_def (c : ℝ) (v : Vec3) : c • v = ⟨c * v.x, c * v.y, c * v.z⟩ := rfl

@[simp] lemma Vec3.truncate_mk (x y z : ℝ) : Vec3.truncate ⟨x, y, z⟩ = ⟨x, y⟩ := rfl

@[simp] lemma Vec2.extend_def (v : Vec2) (z : ℝ) : v.extend z = ⟨v.x, v.y, z⟩ := rfl

@[simp] lemma Vec3.truncate_extend (v : Vec2) (z : ℝ) : (v.extend z).truncate = v := rfl

lemma Vec2.length_nonneg (v : Vec2) : 0 ≤ v.length := Real.sqrt_nonneg _

lemma Vec2.length_eq_of (v : Vec2) (c : ℝ) (h0 : 0 ≤ c)
    (h : v.x * v.x + v.y * v.y = c * c) : v.length = c := by
  rw [Vec2.length, Vec2.dot, h]
  exact Real.sqrt_mul_self h0

lemma Vec2.distance_eq_of (a b : Vec2) (c : ℝ) (h0 : 0 ≤ c)
    (h : (a.x - b.x) * (a.x - b.x) + (a.y - b.y) * (a.y - b.y) = c * c) :
    a.distance b = c := by
  rw [Vec2.distance]
  exact Vec2.length_eq_of _ c h0 h

lemma Vec2.distance_comm (a b : Vec2) : a.distance b = b.distance a := by
  simp only [Vec2.distance, Vec2.length, Vec2.dot, Vec2.sub_def]
  congr 1
  ring

lemma Vec2.distance_origin (p : Vec2) : p.distance ⟨0, 0⟩ = p.length := by
  simp only [Vec2.distance, Vec2.length, Vec2.dot, Vec2.sub_def]
  congr 1
  ring

lemma Vec2.length_smul (c : ℝ) (v : Vec2) : (c • v).length = |c| * v.length := by
  simp only [Vec2.smul_def, Vec2.length, Vec2.dot]
  rw [← Real.sqrt_mul_self_eq_abs c, ← Real.sqrt_mul (mul_self_nonneg c)]
  congr 1
  ring

lemma Vec2.length_eq_zero_iff (v : Vec2) : v.length = 0 ↔ v = ⟨0, 0⟩ := by
  obtain ⟨x, y⟩ := v
  simp only [Vec2.length, Vec2.dot, Vec2.mk.injEq]
  constructor
  · intro h
    have h1 : x * x + y * y ≤ 0 := Real.sqrt_eq_zero'.mp h
    have hx : x * x = 0 :=
      le_antisymm (by nlinarith [mul_self_nonneg y]) (mul_self_nonneg x)
    have hy : y * y = 0 :=
      le_antisymm (by nlinarith [mul_self_nonneg x]) (mul_self_nonneg y)
    exact ⟨mul_self_eq_zero.mp hx, mul_self_eq_zero.mp hy⟩
  · rintro ⟨rfl, rfl⟩
    norm_num [Real.sqrt_zero]

lemma collide_cage_ball_hit (b : BallState)
    (h : Vec2.distance b.translation.truncate ⟨0, 0⟩ + BALL_RADIUS / 2 > CAGE_RADIUS) :
    collide_cage_ball b =
      (⟨b.id,
        Vec2.extend
          (b.translation.truncate +
            (BALL_RADIUS / 2 + Vec2.distance b.translation.truncate ⟨0, 0⟩ - CAGE_RADIUS) •
              Vec2.normalize ((⟨0, 0⟩ : Vec2) - b.translation.truncate))
          b.translation.z,
        reflect b.velocity (Vec2.normalize ((⟨0, 0⟩ : Vec2) - b.translation.truncate))⟩,
       [b.id]) := by
  unfold collide_cage_ball
  rw [if_pos h]

lemma collide_cage_ball_miss (b : BallState)
    (h : ¬ (Vec2.distance b.translation.truncate ⟨0, 0⟩ + BALL_RADIUS / 2 > CAGE_RADIUS)) :
    collide_cage_ball b = (b, []) := by
  unfold collide_cage_ball
  rw [if_neg h]

/-- C1: a body at position (0, 99) with radius 10 and velocity (0, 50)
inside the cage of radius 100 is detected as penetrating
(99 + 5 > 100); one invocation of `collide_cage` reflects the velocity
to (0, -50), corrects the position to (0, 95) and emits exactly one cage
collision event for that body. -/
theorem c1_boundary_scenario :
    collide_cage [⟨7, ⟨0, 99, 1⟩, ⟨0, 50⟩⟩] =
      ([⟨7, ⟨0, 95, 1⟩, ⟨0, -50⟩⟩], [7]) := by
  have hd : Vec2.distance (⟨0, 99⟩ : Vec2) ⟨0, 0⟩ = 99 :=
    Vec2.distance_eq_of _ _ 99 (by norm_num) (by norm_num)
  have htr : Vec3.truncate (⟨0, 99, 1⟩ : Vec3) = (⟨0, 99⟩ : Vec2) := rfl
  have h : Vec2.distance (Vec3.truncate (⟨0, 99, 1⟩ : Vec3)) ⟨0, 0⟩ + BALL_RADIUS / 2 >
      CAGE_RADIUS := by
    rw [htr, hd]; norm_num [BALL_RADIUS, CAGE_RADIUS]
  have hsub : (⟨0, 0⟩ : Vec2) - ⟨0, 99⟩ = (⟨0, -99⟩ : Vec2) := by
    simp only [Vec2.sub_def, Vec2.mk.injEq]
    norm_num
  have hlen : Vec2.length (⟨0, -99⟩ : Vec2) = 99 :=
    Vec2.length_eq_of _ 99 (by norm_num) (by norm_num)
  have hnorm : Vec2.normalize (⟨0, -99⟩ : Vec2) = (⟨0, -1⟩ : Vec2) := by
    rw [Vec2.normalize, hlen]
    simp only [Vec2.smul_def, Vec2.mk.injEq]
    norm_num
  have hrefl : reflect (⟨0, 50⟩ : Vec2) ⟨0, -1⟩ = (⟨0, -50⟩ : Vec2) := by
    simp only [reflect, Vec2.dot, Vec2.smul_def, Vec2.sub_def, Vec2.mk.injEq]
    norm_num
  have hit := collide_cage_ball_hit ⟨7, ⟨0, 99, 1⟩, ⟨0, 50⟩⟩ h
  simp only [collide_cage, hit, htr, hsub, hnorm, hrefl, hd]
  simp only [Vec2.smul_def, Vec2.add_def, Vec2.extend_def, List.append_nil,
    BallState.mk.injEq, Vec3.mk.injEq, Vec2.mk.injEq, List.cons.injEq, Prod.mk.injEq,
    BALL_RADIUS, CAGE_RADIUS]
  norm_num

/-- C3: for every velocity `v` and every unit normal `n`, the reflected
velocity `v - 2*(v.dot n)*n` computed by both resolvers has the same
magnitude as `v`. -/
theorem c3_reflection_preserves_magnitude (v n : Vec2) (h : n.length = 1) :
    (reflect v n).length = v.length := by
  have h0 : 0 ≤ n.x * n.x + n.y * n.y :=
    add_nonneg (mul_self_nonneg _) (mul_self_nonneg _)
  have h1 : Real.sqrt (n.x * n.x + n.y * n.y) = 1 := by
    rw [Vec2.length, Vec2.dot] at h
    exact h
  have hnn : n.x * n.x + n.y * n.y = 1 := by
    calc n.x * n.x + n.y * n.y = Real.sqrt (n.x * n.x + n.y * n.y) ^ 2 :=
          (Real.sq_sqrt h0).symm
      _ = 1 := by rw [h1]; norm_num
  simp only [reflect, Vec2.length, Vec2.dot, Vec2.sub_def, Vec2.smul_def]
  congr 1
  linear_combination (4 * (v.x * n.x + v.y * n.y) ^ 2) * hnn

theorem c3_witness :
    Vec2.length ⟨0, 1⟩ = 1 ∧
    Vec2.length (reflect ⟨3, 4⟩ ⟨0, 1⟩) = Vec2.length ⟨3, 4⟩ := by
  have h : Vec2.length (⟨0, 1⟩ : Vec2) = 1 :=
    Vec2.length_eq_of _ 1 (by norm_num) (by norm_num)
  exact ⟨h, c3_reflection_preserves_magnitude ⟨3, 4⟩ ⟨0, 1⟩ h⟩

/-- C4: if a body satisfies the penetration predicate, then after one
invocation of the boundary resolver its distance to the cage center is
exactly `CAGE_RADIUS - BALL_RADIUS / 2`, so the predicate no longer
holds on the corrected position. -/
theorem c4_boundary_penetration_resolved (b : BallState)
    (h : Vec2.distance b.translation.truncate ⟨0, 0⟩ + BALL_RADIUS / 2 > CAGE_RADIUS) :
    Vec2.distance (collide_cage_ball b).1.translation.truncate ⟨0, 0⟩ =
      CAGE_RADIUS - BALL_RADIUS / 2 ∧
    ¬ (Vec2.distance (collide_cage_ball b).1.translation.truncate ⟨0, 0⟩ +
        BALL_RADIUS / 2 > CAGE_RADIUS) := by
  have hL : Vec2.distance b.translation.truncate ⟨0, 0⟩ = b.translation.truncate.length :=
    Vec2.distance_origin _
  have hc : (0 : ℝ) < CAGE_RADIUS - BALL_RADIUS / 2 := by
    norm_num [CAGE_RADIUS, BALL_RADIUS]
  have hLgt : b.translation.truncate.length > CAGE_RADIUS - BALL_RADIUS / 2 := by
    rw [hL] at h
    linarith
  have hLpos : 0 < b.translation.truncate.length := by linarith
  have hLne : b.translation.truncate.length ≠ 0 := ne_of_gt hLpos
  have hq : ((⟨0, 0⟩ : Vec2) - b.translation.truncate).length =
      b.translation.truncate.length := by
    simp only [Vec2.length, Vec2.dot, Vec2.sub_def]
    congr 1
    ring
  have hnew : (collide_cage_ball b).1.translation.truncate =
      ((CAGE_RADIUS - BALL_RADIUS / 2) / b.translation.truncate.length) •
        b.translation.truncate := by
    simp only [collide_cage_ball_hit b h, Vec3.truncate_extend]
    rw [Vec2.normalize, hq, hL]
    simp only [Vec2.smul_def, Vec2.add_def, Vec2.sub_def]
    ext
    · field_simp
      ring
    · field_simp
      ring
  have hfirst : Vec2.distance (collide_cage_ball b).1.translation.truncate ⟨0, 0⟩ =
      CAGE_RADIUS - BALL_RADIUS / 2 := by
    rw [hnew, Vec2.distance_origin, Vec2.length_smul, abs_of_pos (div_pos hc hLpos),
      div_mul_cancel₀ _ hLne]
  refine ⟨hfirst, ?_⟩
  rw [hfirst]
  norm_num

theorem c4_witness :
    (Vec2.distance (Vec3.truncate ⟨0, 99, 0⟩) ⟨0, 0⟩ + BALL_RADIUS / 2 > CAGE_RADIUS) ∧
    Vec2.distance (collide_cage_ball ⟨3, ⟨0, 99, 0⟩, ⟨1, 2⟩⟩).1.translation.truncate ⟨0, 0⟩ =
      CAGE_RADIUS - BALL_RADIUS / 2 := by
  have hd : Vec2.distance (⟨0, 99⟩ : Vec2) ⟨0, 0⟩ = 99 :=
    Vec2.distance_eq_of _ _ 99 (by norm_num) (by norm_num)
  have h : Vec2.distance (Vec3.truncate (⟨0, 99, 0⟩ : Vec3)) ⟨0, 0⟩ + BALL_RADIUS / 2 >
      CAGE_RADIUS := by
    rw [show Vec3.truncate (⟨0, 99, 0⟩ : Vec3) = (⟨0, 99⟩ : Vec2) from rfl, hd]
    norm_num [BALL_RADIUS, CAGE_RADIUS]
  exact ⟨h, (c4_boundary_penetration_resolved ⟨3, ⟨0, 99, 0⟩, ⟨1, 2⟩⟩ h).1⟩

lemma inner_skip (i : ℕ) (pos0 : Vec2) (oid : ℕ) (opos : Vec2)
    (rest : List (ℕ × Vec2)) (tr : Vec3) (vel : Vec2) (h : pos0 = opos) :
    collide_others_inner i pos0 ((oid, opos) :: rest) tr vel =
      collide_others_inner i pos0 rest tr vel := by
  simp only [collide_others_inner]
  rw [if_pos h]

lemma inner_hit (i : ℕ) (pos0 : Vec2) (oid : ℕ) (opos : Vec2)
    (rest : List (ℕ × Vec2)) (tr : Vec3) (vel : Vec2) (h1 : pos0 ≠ opos)
    (h2 : Vec2.distance pos0 opos < BALL_RADIUS / 2 + BALL_RADIUS / 2) :
    collide_others_inner i pos0 ((oid, opos) :: rest) tr vel =
      cons_event (i, oid)
        (collide_others_inner i pos0 rest
          (tr - (BALL_RADIUS / 2 + BALL_RADIUS / 2 - Vec2.distance pos0 opos) •
            Vec2.extend (Vec2.normalize (opos - pos0)) 0)
          (reflect vel (Vec2.normalize (opos - pos0)))) := by
  simp only [collide_others_inner]
  rw [if_neg h1, if_pos h2]

lemma inner_miss (i : ℕ) (pos0 : Vec2) (oid : ℕ) (opos : Vec2)
    (rest : List (ℕ × Vec2)) (tr : Vec3) (vel : Vec2) (h1 : pos0 ≠ opos)
    (h2 : ¬ (Vec2.distance pos0 opos < BALL_RADIUS / 2 + BALL_RADIUS / 2)) :
    collide_others_inner i pos0 ((oid, opos) :: rest) tr vel =
      collide_others_inner i pos0 rest tr vel := by
  simp only [collide_others_inner]
  rw [if_neg h1, if_neg h2]

lemma inner_events_eq (i : ℕ) (pos0 : Vec2) (snap : List (ℕ × Vec2)) :
    ∀ (tr : Vec3) (vel : Vec2),
      (collide_others_inner i pos0 snap tr vel).2.2 = inner_events_list i pos0 snap := by
  induction snap with
  | nil => intro tr vel; rfl
  | cons head rest ih =>
    intro tr vel
    obtain ⟨oid, opos⟩ := head
    by_cases h1 : pos0 = opos
    · rw [inner_skip i pos0 oid opos rest tr vel h1]
      simp only [inner_events_list]
      rw [if_pos h1]
      exact ih tr vel
    · by_cases h2 : Vec2.distance pos0 opos < BALL_RADIUS / 2 + BALL_RADIUS / 2
      · rw [inner_hit i pos0 oid opos rest tr vel h1 h2]
        simp only [inner_events_list, cons_event]
        rw [if_neg h1, if_pos h2, ih]
      · rw [inner_miss i pos0 oid opos rest tr vel h1 h2]
        simp only [inner_events_list]
        rw [if_neg h1, if_neg h2]
        exact ih tr vel

lemma inner_events_mem (i : ℕ) (pos0 : Vec2) (oid : ℕ) (opos : Vec2)
    (snap : List (ℕ × Vec2)) (hmem : (oid, opos) ∈ snap) (hne : pos0 ≠ opos)
    (hlt : Vec2.distance pos0 opos < BALL_RADIUS / 2 + BALL_RADIUS / 2) :
    (i, oid) ∈ inner_events_list i pos0 snap := by
  induction snap with
  | nil => simp at hmem
  | cons head rest ih =>
    obtain ⟨oid2, opos2⟩ := head
    simp only [inner_events_list]
    rcases List.mem_cons.mp hmem with heq | hmem2
    · injection heq with ha hb
      subst ha
      subst hb
      rw [if_neg hne, if_pos hlt]
      exact List.mem_cons_self _ _
    · by_cases h1 : pos0 = opos2
      · rw [if_pos h1]
        exact ih hmem2
      · rw [if_neg h1]
        by_cases h2 : Vec2.distance pos0 opos2 < BALL_RADIUS / 2 + BALL_RADIUS / 2
        · rw [if_pos h2]
          exact List.mem_cons_of_mem _ (ih hmem2)
        · rw [if_neg h2]
          exact ih hmem2

lemma pass_events_cons (snap : List (ℕ × Vec2)) (b : BallState) (rest : List BallState) :
    (collide_others_pass snap (b :: rest)).2 =
      (collide_others_ball snap b).2 ++ (collide_others_pass snap rest).2 := rfl

lemma pass_events_mem (snap : List (ℕ × Vec2)) (balls : List BallState) (b : BallState)
    (hb : b ∈ balls) (ev : ℕ × ℕ) (hev : ev ∈ (collide_others_ball snap b).2) :
    ev ∈ (collide_others_pass snap balls).2 := by
  induction balls with
  | nil => simp at hb
  | cons hd rest ih =>
    rw [pass_events_cons]
    rcases List.mem_cons.mp hb with heq | hb2
    · subst heq
      exact List.mem_append_left _ hev
    · exact List.mem_append_right _ (ih hb2)

lemma collide_others_pair_events (a b : BallState)
    (hpos : a.translation.truncate ≠ b.translation.truncate) :
    (collide_others [a, b]).2 =
      if Vec2.distance a.translation.truncate b.translation.truncate <
          BALL_RADIUS / 2 + BALL_RADIUS / 2 then
        [(a.id, b.id), (b.id, a.id)]
      else [] := by
  simp only [collide_others, snapshot_of, List.map_cons, List.map_nil,
    collide_others_pass, collide_others_ball]
  rw [inner_events_eq, inner_events_eq]
  simp only [inner_events_list, if_true]
  rw [if_neg hpos, if_neg (Ne.symm hpos),
    Vec2.distance_comm b.translation.truncate a.translation.truncate]
  by_cases hlt : Vec2.distance a.translation.truncate b.translation.truncate <
      BALL_RADIUS / 2 + BALL_RADIUS / 2
  · rw [if_pos hlt, if_pos hlt, if_pos hlt]
    rfl
  · rw [if_neg hlt, if_neg hlt, if_neg hlt]
    rfl

/-- C2 (amended): the boundary resolver declares penetration for a body
exactly when `distance + BALL_RADIUS / 2 > CAGE_RADIUS`; the pairwise
resolver, for two bodies at distinct positions, declares overlap exactly
when their distance is strictly below `BALL_RADIUS / 2 + BALL_RADIUS / 2`.
(The distinct-positions hypothesis is forced: at identical positions the
inner loop skips the pair even though the distance, 0, is below the
threshold.) -/
theorem c2_half_radius_predicates (a b : BallState)
    (hpos : a.translation.truncate ≠ b.translation.truncate) :
    (∀ c : BallState, (collide_cage_ball c).2 ≠ [] ↔
      Vec2.distance c.translation.truncate ⟨0, 0⟩ + BALL_RADIUS / 2 > CAGE_RADIUS) ∧
    ((collide_others [a, b]).2 ≠ [] ↔
      Vec2.distance a.translation.truncate b.translation.truncate <
        BALL_RADIUS / 2 + BALL_RADIUS / 2) := by
  constructor
  · intro c
    by_cases hc : Vec2.distance c.translation.truncate ⟨0, 0⟩ + BALL_RADIUS / 2 > CAGE_RADIUS
    · rw [collide_cage_ball_hit c hc]
      exact iff_of_true (by simp) hc
    · rw [collide_cage_ball_miss c hc]
      exact iff_of_false (by simp) hc
  · rw [collide_others_pair_events a b hpos]
    by_cases hlt : Vec2.distance a.translation.truncate b.translation.truncate <
        BALL_RADIUS / 2 + BALL_RADIUS / 2
    · rw [if_pos hlt]
      exact iff_of_true (by simp) hlt
    · rw [if_neg hlt]
      exact iff_of_false (by simp) hlt

/-- C2 counterexample: two bodies at the exact same position have
distance 0, strictly below the half-radius sum, yet the pairwise
resolver declares no overlap (no event is emitted), so the claimed
"exactly when" equivalence fails without a distinct-positions guard. -/
theorem c2_counterexample :
    Vec2.distance (Vec3.truncate ⟨0, 0, 1⟩) (Vec3.truncate ⟨0, 0, 1⟩) <
      BALL_RADIUS / 2 + BALL_RADIUS / 2 ∧
    (collide_others [⟨0, ⟨0, 0, 1⟩, ⟨1, 2⟩⟩, ⟨1, ⟨0, 0, 1⟩, ⟨3, 4⟩⟩]).2 = [] := by
  constructor
  · have hd : Vec2.distance (⟨0, 0⟩ : Vec2) ⟨0, 0⟩ = 0 :=
      Vec2.distance_eq_of _ _ 0 le_rfl (by norm_num)
    simp only [Vec3.truncate_mk]
    rw [hd]
    norm_num [BALL_RADIUS]
  · simp only [collide_others, snapshot_of, List.map_cons, List.map_nil,
      collide_others_pass, collide_others_ball]
    rw [inner_events_eq, inner_events_eq]
    simp [inner_events_list]

theorem c2_witness :
    (Vec3.truncate (⟨0, 0, 1⟩ : Vec3) ≠ Vec3.truncate (⟨3, 0, 1⟩ : Vec3)) ∧
    ((collide_others [⟨0, ⟨0, 0, 1⟩, ⟨1, 2⟩⟩, ⟨1, ⟨3, 0, 1⟩, ⟨3, 4⟩⟩]).2 ≠ [] ↔
      Vec2.distance (Vec3.truncate ⟨0, 0, 1⟩) (Vec3.truncate ⟨3, 0, 1⟩) <
        BALL_RADIUS / 2 + BALL_RADIUS / 2) := by
  have hne : (⟨0, 0⟩ : Vec2) ≠ ⟨3, 0⟩ := by
    intro hc
    rw [Vec2.mk.injEq] at hc
    norm_num at hc
  have h := c2_half_radius_predicates ⟨0, ⟨0, 0, 1⟩, ⟨1, 2⟩⟩ ⟨1, ⟨3, 0, 1⟩, ⟨3, 4⟩⟩ hne
  exact ⟨hne, h.2⟩

/-- C5: when a normalization distance would be exactly zero the
resolvers skip: two balls at identical (2D) positions pass through the
pairwise resolver completely unchanged with no event, and a ball exactly
at the cage center is left unchanged by the boundary resolver. -/
theorem c5_zero_distance_guard (a b : BallState)
    (hpos : a.translation.truncate = b.translation.truncate) :
    collide_others [a, b] = ([a, b], []) ∧
    ∀ (i : ℕ) (z : ℝ) (v : Vec2),
      collide_cage_ball ⟨i, ⟨0, 0, z⟩, v⟩ = (⟨i, ⟨0, 0, z⟩, v⟩, []) := by
  constructor
  · have hA : collide_others_inner a.id a.translation.truncate
        [(a.id, a.translation.truncate), (b.id, b.translation.truncate)]
        a.translation a.velocity = (a.translation, a.velocity, []) := by
      rw [inner_skip _ _ _ _ _ _ _ rfl, inner_skip _ _ _ _ _ _ _ hpos]
      rfl
    have hB : collide_others_inner b.id b.translation.truncate
        [(a.id, a.translation.truncate), (b.id, b.translation.truncate)]
        b.translation b.velocity = (b.translation, b.velocity, []) := by
      rw [inner_skip _ _ _ _ _ _ _ hpos.symm, inner_skip _ _ _ _ _ _ _ rfl]
      rfl
    show collide_others [a, b] = ([a, b], [])
    simp only [collide_others, snapshot_of, List.map_cons, List.map_nil,
      collide_others_pass, collide_others_ball]
    rw [hA, hB]
    rfl
  · intro i z v
    apply collide_cage_ball_miss
    have hd0 : Vec2.distance (Vec3.truncate (⟨0, 0, z⟩ : Vec3)) ⟨0, 0⟩ = 0 :=
      Vec2.distance_eq_of _ _ 0 le_rfl (by norm_num)
    rw [hd0]
    norm_num [BALL_RADIUS, CAGE_RADIUS]

theorem c5_witness :
    Vec3.truncate (⟨2, 3, 1⟩ : Vec3) = Vec3.truncate (⟨2, 3, 0⟩ : Vec3) ∧
    collide_others [⟨0, ⟨2, 3, 1⟩, ⟨5, 6⟩⟩, ⟨1, ⟨2, 3, 0⟩, ⟨7, 8⟩⟩] =
      ([⟨0, ⟨2, 3, 1⟩, ⟨5, 6⟩⟩, ⟨1, ⟨2, 3, 0⟩, ⟨7, 8⟩⟩], []) ∧
    collide_cage_ball ⟨4, ⟨0, 0, 2⟩, ⟨1, 1⟩⟩ = (⟨4, ⟨0, 0, 2⟩, ⟨1, 1⟩⟩, []) := by
  have h := c5_zero_distance_guard ⟨0, ⟨2, 3, 1⟩, ⟨5, 6⟩⟩ ⟨1, ⟨2, 3, 0⟩, ⟨7, 8⟩⟩ rfl
  exact ⟨rfl, h.1, h.2 4 2 ⟨1, 1⟩⟩

/-- C6: if two distinct bodies overlap at the snapshotted positions
(distinct positions, distance below the threshold), then both ordered
events are emitted by one `collide_others` pass, because each side's
check uses the other side's snapshotted position. -/
theorem c6_symmetric_pair_events (balls : List BallState) (i j : ℕ)
    (hi : i < balls.length) (hj : j < balls.length) (hij : i ≠ j)
    (hpos : (balls.get ⟨i, hi⟩).translation.truncate ≠
      (balls.get ⟨j, hj⟩).translation.truncate)
    (hdist : Vec2.distance (balls.get ⟨i, hi⟩).translation.truncate
        ((balls.get ⟨j, hj⟩).translation.truncate) < BALL_RADIUS / 2 + BALL_RADIUS / 2) :
    ((balls.get ⟨i, hi⟩).id, (balls.get ⟨j, hj⟩).id) ∈ (collide_others balls).2 ∧
    ((balls.get ⟨j, hj⟩).id, (balls.get ⟨i, hi⟩).id) ∈ (collide_others balls).2 := by
  have hmem_i : balls.get ⟨i, hi⟩ ∈ balls := List.get_mem balls i hi
  have hmem_j : balls.get ⟨j, hj⟩ ∈ balls := List.get_mem balls j hj
  have hsnap_i : ((balls.get ⟨i, hi⟩).id, (balls.get ⟨i, hi⟩).translation.truncate) ∈
      snapshot_of balls := List.mem_map_of_mem _ hmem_i
  have hsnap_j : ((balls.get ⟨j, hj⟩).id, (balls.get ⟨j, hj⟩).translation.truncate) ∈
      snapshot_of balls := List.mem_map_of_mem _ hmem_j
  constructor
  · have hin : ((balls.get ⟨i, hi⟩).id, (balls.get ⟨j, hj⟩).id) ∈
        (collide_others_ball (snapshot_of balls) (balls.get ⟨i, hi⟩)).2 := by
      simp only [collide_others_ball]
      rw [inner_events_eq]
      exact inner_events_mem _ _ _ _ _ hsnap_j hpos hdist
    simp only [collide_others]
    exact pass_events_mem _ _ _ hmem_i _ hin
  · have hdist2 : Vec2.distance (balls.get ⟨j, hj⟩).translation.truncate
        ((balls.get ⟨i, hi⟩).translation.truncate) < BALL_RADIUS / 2 + BALL_RADIUS / 2 := by
      rw [Vec2.distance_comm]
      exact hdist
    have hin : ((balls.get ⟨j, hj⟩).id, (balls.get ⟨i, hi⟩).id) ∈
        (collide_others_ball (snapshot_of balls) (balls.get ⟨j, hj⟩)).2 := by
      simp only [collide_others_ball]
      rw [inner_events_eq]
      exact inner_events_mem _ _ _ _ _ hsnap_i (Ne.symm hpos) hdist2
    simp only [collide_others]
    exact pass_events_mem _ _ _ hmem_j _ hin

theorem c6_witness :
    (Vec3.truncate (⟨0, 0, 0⟩ : Vec3) ≠ Vec3.truncate (⟨3, 0, 0⟩ : Vec3)) ∧
    Vec2.distance (Vec3.truncate ⟨0, 0, 0⟩) (Vec3.truncate ⟨3, 0, 0⟩) <
      BALL_RADIUS / 2 + BALL_RADIUS / 2 ∧
    (0, 1) ∈ (collide_others [⟨0, ⟨0, 0, 0⟩, ⟨0, 0⟩⟩, ⟨1, ⟨3, 0, 0⟩, ⟨0, 0⟩⟩]).2 ∧
    (1, 0) ∈ (collide_others [⟨0, ⟨0, 0, 0⟩, ⟨0, 0⟩⟩, ⟨1, ⟨3, 0, 0⟩, ⟨0, 0⟩⟩]).2 := by
  have hne : (⟨0, 0⟩ : Vec2) ≠ ⟨3, 0⟩ := by
    intro hc
    rw [Vec2.mk.injEq] at hc
    norm_num at hc
  have hd : Vec2.distance (⟨0, 0⟩ : Vec2) ⟨3, 0⟩ = 3 :=
    Vec2.distance_eq_of _ _ 3 (by norm_num) (by norm_num)
  have hlt : Vec2.distance (⟨0, 0⟩ : Vec2) ⟨3, 0⟩ < BALL_RADIUS / 2 + BALL_RADIUS / 2 := by
    rw [hd]
    norm_num [BALL_RADIUS]
  have h := c6_symmetric_pair_events
    [⟨0, ⟨0, 0, 0⟩, ⟨0, 0⟩⟩, ⟨1, ⟨3, 0, 0⟩, ⟨0, 0⟩⟩] 0 1
    (by norm_num) (by norm_num) (by norm_num) hne hlt
  exact ⟨hne, hlt, h.1, h.2⟩

/-- C7: `maybe_spawn_ball` spawns nothing when the tick produced no cage
collision event, and never more than one ball regardless of how many
events occurred. -/
theorem c7_spawn_bounds (events : List ℕ) (r : ℝ) (balls : List BallState)
    (newId : ℕ) (r1 r2 : ℝ) :
    (events = [] → maybe_spawn_ball events r balls newId r1 r2 = balls) ∧
    (maybe_spawn_ball events r balls newId r1 r2).length ≤ balls.length + 1 := by
  constructor
  · intro h
    subst h
    rfl
  · unfold maybe_spawn_ball
    by_cases h : events.isEmpty = false
    · rw [if_pos h]
      by_cases hr : r * 100 < 10
      · rw [if_pos hr, List.length_append]
        simp
      · rw [if_neg hr]
        exact Nat.le_succ _
    · rw [if_neg h]
      exact Nat.le_succ _

theorem c7_witness :
    maybe_spawn_ball [] (1 / 2) [] 0 0 0 = [] ∧
    (maybe_spawn_ball [5] (1 / 2) [] 0 0 0).length ≤ 0 + 1 :=
  ⟨(c7_spawn_bounds [] (1 / 2) [] 0 0 0).1 rfl, (c7_spawn_bounds [5] (1 / 2) [] 0 0 0).2⟩

/-- C8 (amended): every spawned ball is placed at the cage center, and
for every sampled direction other than the zero vector the spawned
velocity has magnitude exactly `BALL_STARTING_SPEED`.  (The nonzero
hypothesis is forced: the sample `(1/2, 1/2)` yields the zero direction,
whose normalization is degenerate, see the counterexample.) -/
theorem c8_spawn_center_and_speed (i : ℕ) (r1 r2 : ℝ)
    (h : starting_direction r1 r2 ≠ ⟨0, 0⟩) :
    (spawn_ball i r1 r2).translation = ⟨0, 0, 1⟩ ∧
    (spawn_ball i r1 r2).velocity.length = BALL_STARTING_SPEED := by
  refine ⟨rfl, ?_⟩
  have hL : (starting_direction r1 r2).length ≠ 0 := by
    intro h0
    exact h ((Vec2.length_eq_zero_iff _).mp h0)
  have hLpos : 0 < (starting_direction r1 r2).length :=
    lt_of_le_of_ne (Vec2.length_nonneg _) (Ne.symm hL)
  show Vec2.length (BALL_STARTING_SPEED • Vec2.normalize (starting_direction r1 r2)) =
    BALL_STARTING_SPEED
  rw [Vec2.normalize, Vec2.length_smul, Vec2.length_smul,
    abs_of_pos (div_pos one_pos hLpos), one_div, inv_mul_cancel₀ hL, mul_one,
    abs_of_pos (show (0 : ℝ) < BALL_STARTING_SPEED by norm_num [BALL_STARTING_SPEED])]

theorem c8_witness :
    starting_direction 1 (1 / 2) ≠ ⟨0, 0⟩ ∧
    (spawn_ball 0 1 (1 / 2)).translation = ⟨0, 0, 1⟩ ∧
    (spawn_ball 0 1 (1 / 2)).velocity.length = BALL_STARTING_SPEED := by
  have h : starting_direction 1 (1 / 2) ≠ ⟨0, 0⟩ := by
    intro hc
    simp only [starting_direction, Vec2.mk.injEq] at hc
    norm_num at hc
  have hh := c8_spawn_center_and_speed 0 1 (1 / 2) h
  exact ⟨h, hh.1, hh.2⟩

/-- C8 counterexample: the admissible samples `(1/2, 1/2)` produce the
zero direction, and the resulting spawned velocity does not have
magnitude `BALL_STARTING_SPEED` (the source computes NaN here; in the
embedding the degenerate normalization yields the zero vector).  So the
claimed magnitude property fails for this sampled direction. -/
theorem c8_counterexample :
    starting_direction (1 / 2) (1 / 2) = ⟨0, 0⟩ ∧
    (spawn_ball 0 (1 / 2) (1 / 2)).velocity.length ≠ BALL_STARTING_SPEED := by
  have hd : starting_direction (1 / 2) (1 / 2) = ⟨0, 0⟩ := by
    simp only [starting_direction, Vec2.mk.injEq]
    norm_num
  refine ⟨hd, ?_⟩
  have hv : (spawn_ball 0 (1 / 2) (1 / 2)).velocity = ⟨0, 0⟩ := by
    show BALL_STARTING_SPEED • Vec2.normalize (starting_direction (1 / 2) (1 / 2)) = ⟨0, 0⟩
    rw [hd, Vec2.normalize]
    simp only [Vec2.smul_def, Vec2.mk.injEq]
    norm_num
  rw [hv, (Vec2.length_eq_zero_iff _).mpr rfl]
  norm_num [BALL_STARTING_SPEED]

/-- C9 counterexample: the event-driven effects are not part of the
per-fixed-tick pipeline at all: `maybe_spawn_ball` (and the audio
consumer) are registered in the per-frame `Update` schedule, not in the
`FixedUpdate` schedule, so they do not run once per fixed simulation
tick as claimed. -/
theorem c9_counterexample :
    SystemName.maybeSpawnBall ∈ update_systems ∧
    SystemName.maybeSpawnBall ∉ fixed_update_systems ∧
    SystemName.playCollisionSound ∉ fixed_update_systems := by
  decide

/-- C9 (amended): the `FixedUpdate` schedule chains gravity, position
integration, boundary resolution and pairwise resolution strictly in
that order, and one fixed tick is their composition in that order; the
event-driven effects (`maybe_spawn_ball`, `play_collision_sound`) are
registered in the per-frame `Update` schedule instead, so they run once
per frame rather than once per fixed tick. -/
theorem c9_schedule :
    fixed_update_systems =
      [SystemName.applyGravity, SystemName.applyVelocity,
       SystemName.collideCage, SystemName.collideOthers] ∧
    fixed_update_chained = true ∧
    (∀ (dt : ℝ) (balls : List BallState),
      fixed_update_tick dt balls =
        ((collide_others ((collide_cage (apply_velocity dt (apply_gravity dt balls))).1)).1,
         (collide_cage (apply_velocity dt (apply_gravity dt balls))).2,
         (collide_others ((collide_cage (apply_velocity dt (apply_gravity dt balls))).1)).2)) ∧
    SystemName.maybeSpawnBall ∈ update_systems ∧
    SystemName.playCollisionSound ∈ update_systems :=
  ⟨rfl, rfl, fun _ _ => rfl, by decide, by decide⟩

lemma collide_cage_ball_z (b : BallState) :
    (collide_cage_ball b).1.translation.z = b.translation.z := by
  by_cases h : Vec2.distance b.translation.truncate ⟨0, 0⟩ + BALL_RADIUS / 2 > CAGE_RADIUS
  · rw [collide_cage_ball_hit b h]
    rfl
  · rw [collide_cage_ball_miss b h]

lemma inner_z (i : ℕ) (pos0 : Vec2) (snap : List (ℕ × Vec2)) :
    ∀ (tr : Vec3) (vel : Vec2), (collide_others_inner i pos0 snap tr vel).1.z = tr.z := by
  induction snap with
  | nil => intro tr vel; rfl
  | cons head rest ih =>
    intro tr vel
    obtain ⟨oid, opos⟩ := head
    by_cases h1 : pos0 = opos
    · rw [inner_skip i pos0 oid opos rest tr vel h1]
      exact ih tr vel
    · by_cases h2 : Vec2.distance pos0 opos < BALL_RADIUS / 2 + BALL_RADIUS / 2
      · rw [inner_hit i pos0 oid opos rest tr vel h1 h2]
        simp only [cons_event]
        rw [ih]
        simp [Vec3.sub3_def, Vec3.smul3_def, Vec2.extend_def]
      · rw [inner_miss i pos0 oid opos rest tr vel h1 h2]
        exact ih tr vel

lemma collide_others_ball_z (snap : List (ℕ × Vec2)) (b : BallState) :
    (collide_others_ball snap b).1.translation.z = b.translation.z :=
  inner_z b.id b.translation.truncate snap b.translation b.velocity

lemma cage_map_z (balls : List BallState) :
    ((collide_cage balls).1.map fun b => b.translation.z) =
      balls.map fun b => b.translation.z := by
  induction balls with
  | nil => rfl
  | cons b rest ih =>
    simp only [collide_cage, List.map_cons]
    rw [collide_cage_ball_z b, ih]

lemma others_pass_map_z (snap : List (ℕ × Vec2)) (balls : List BallState) :
    ((collide_others_pass snap balls).1.map fun b => b.translation.z) =
      balls.map fun b => b.translation.z := by
  induction balls with
  | nil => rfl
  | cons b rest ih =>
    simp only [collide_others_pass, List.map_cons]
    rw [collide_others_ball_z snap b, ih]

/-- C10: both collision resolvers move bodies only in the 2D plane: the
z components of all translations are unchanged by `collide_cage` and by
`collide_others`, for every simulation state. -/
theorem c10_preserve_z (balls : List BallState) :
    ((collide_cage balls).1.map fun b => b.translation.z) =
      (balls.map fun b => b.translation.z) ∧
    ((collide_others balls).1.map fun b => b.translation.z) =
      (balls.map fun b => b.translation.z) :=
  ⟨cage_map_z balls, others_pass_map_z (snapshot_of balls) balls⟩
